import Mathlib

/-
  Verification development for the deferred-result (Promise) resolution
  engine of this repository (src/dom/promise/Promise.cpp).

  The engine is shallowly embedded as a state machine over a `World`:
  a heap of Promise records addressed by `PromiseId`, a FIFO task queue
  (one owning context is modelled; the source dispatches every task of a
  promise to its own single-threaded context, so one queue captures the
  per-context semantics the claims are about), a log of user-callback
  invocations, and a log of unhandled-rejection reports.

  Field and operation names follow the source: `mState`, `mResult`,
  `mTaskPending`, `mHadRejectCallback`, `mResolvePending`,
  `mResolveCallbacks`, `mRejectCallbacks`; `AppendCallbacks`, `RunTask`,
  `MaybeResolveInternal`, `MaybeRejectInternal`, `ResolveInternal`,
  `RejectInternal`, `RunResolveTask`, `MaybeReportRejected`.
-/

set_option maxRecDepth 20000

namespace GeckoPromise

/-- Promise identifiers: indices into the world's heap. -/
abbrev PromiseId := Nat

/-- Identifiers of user-supplied continuations (external collaborators). -/
abbrev CbId := Nat

/-- `Promise::PromiseState` from Promise.h: Pending, Resolved, Rejected. -/
inductive PromiseState where
  | Pending
  | Resolved
  | Rejected
deriving DecidableEq, Repr

/-- `Promise::PromiseTaskSync` from Promise.h: whether settlement is applied
synchronously or via a queued `PromiseResolverTask`. -/
inductive PromiseTaskSync where
  | SyncTask
  | AsyncTask
deriving DecidableEq, Repr

/-- Opaque JS values as far as the engine inspects them: undefined, a
number, an object wrapping a Promise (`UNWRAP_OBJECT(Promise, ...)`
succeeds), an error-like object (`js::ErrorFromException` yields a report),
or a plain non-promise object (unwrap and error extraction both fail). -/
inductive Value where
  | undef
  | num (n : Int)
  | promiseRef (p : PromiseId)
  | errorObj (n : Nat)
  | plainObj (n : Nat)
deriving DecidableEq, Repr

/-- `aValue.isObject()` in the source. -/
def Value.isObject : Value → Bool
  | .promiseRef _ => true
  | .errorObj _ => true
  | .plainObj _ => true
  | _ => false

/-- `UNWRAP_OBJECT(Promise, aCx, valueObj, nextPromise)`: succeeds exactly
on values wrapping a Promise. -/
def unwrapPromise : Value → Option PromiseId
  | .promiseRef p => some p
  | _ => none

/-- `js::ErrorFromException(mResult)` returning a non-null `JSErrorReport`:
true exactly on error-like objects. -/
def errorFromException : Value → Bool
  | .errorObj _ => true
  | _ => false

/-- A `PromiseCallback`: either a user continuation (external collaborator,
identified by a `CbId`; its invocations are logged), or one of the two
chaining adapters `ResolvePromiseCallback` / `RejectPromiseCallback`
created by `Promise::ResolveInternal`, holding the target promise they
forward into. -/
inductive PromiseCallback where
  | user (id : CbId)
  | resolveAdapter (target : PromiseId)
  | rejectAdapter (target : PromiseId)
deriving DecidableEq, Repr

/-- The per-promise state of Promise.h, as initialised by the
`Promise::Promise` constructor: Pending, undefined result, no task
pending, no reject callback seen, no settlement requested. -/
structure Promise where
  mState : PromiseState
  mResult : Value
  mTaskPending : Bool
  mHadRejectCallback : Bool
  mResolvePending : Bool
  mResolveCallbacks : List PromiseCallback
  mRejectCallbacks : List PromiseCallback
deriving DecidableEq, Repr

/-- A freshly constructed promise (`Promise::Promise`). -/
def defaultPromise : Promise :=
  { mState := PromiseState.Pending
    mResult := Value.undef
    mTaskPending := false
    mHadRejectCallback := false
    mResolvePending := false
    mResolveCallbacks := []
    mRejectCallbacks := [] }

instance : Inhabited Promise := ⟨defaultPromise⟩

/-- The two task shapes dispatched to the owning context: `PromiseTask`
(drain callbacks) and `PromiseResolverTask` (apply a settlement, then
drain). -/
inductive Task where
  | promiseTask (p : PromiseId)
  | resolverTask (p : PromiseId) (v : Value) (s : PromiseState)
deriving DecidableEq, Repr

/-- The world: promise heap, the owning context's FIFO task queue, the log
of user-callback invocations (callback id paired with the argument it was
called with, in invocation order), and the log of unhandled-rejection
reports dispatched to the external error reporter. -/
structure World where
  heap : List Promise
  queue : List Task
  callLog : List (CbId × Value)
  reports : List Value
deriving DecidableEq, Repr

def emptyWorld : World :=
  { heap := [], queue := [], callLog := [], reports := [] }

/-- Read a promise from the heap (default record if out of range). -/
def getP (w : World) (pid : PromiseId) : Promise :=
  w.heap.getD pid defaultPromise

/-- Write a promise back to the heap. -/
def setP (w : World) (pid : PromiseId) (p : Promise) : World :=
  { w with heap := w.heap.set pid p }

/-- `NS_DispatchToCurrentThread` / `worker->Dispatch`: FIFO enqueue on the
owning context. -/
def enqueue (w : World) (t : Task) : World :=
  { w with queue := w.queue ++ [t] }

/-- Allocate a fresh pending promise (`new Promise(window)`); returns the
updated world and the new promise's id. -/
def newPromise (w : World) : World × PromiseId :=
  ({ w with heap := w.heap ++ [defaultPromise] }, w.heap.length)

/-- The record half of `Promise::AppendCallbacks`: append the non-null
callbacks to the corresponding sequences and record that a reject
callback was seen (`mHadRejectCallback = true`). -/
def appendedPromise (p0 : Promise)
    (resolveCb rejectCb : Option PromiseCallback) : Promise :=
  let p1 := match resolveCb with
    | some c => { p0 with mResolveCallbacks := p0.mResolveCallbacks ++ [c] }
    | none => p0
  match rejectCb with
  | some c => { p1 with mHadRejectCallback := true,
                        mRejectCallbacks := p1.mRejectCallbacks ++ [c] }
  | none => p1

/-- `Promise::AppendCallbacks(aResolveCallback, aRejectCallback)`: append
the non-null callbacks, and — if the promise is already settled
(`mState != Pending`) and no drain task is pending — dispatch a
`PromiseTask` to the owning context and set `mTaskPending`. -/
def appendCallbacks (w : World) (pid : PromiseId)
    (resolveCb rejectCb : Option PromiseCallback) : World :=
  let p2 := appendedPromise (getP w pid) resolveCb rejectCb
  if p2.mState ≠ PromiseState.Pending ∧ p2.mTaskPending = false then
    setP (enqueue (setP w pid p2) (Task.promiseTask pid)) pid
      { p2 with mTaskPending := true }
  else
    setP w pid p2

/-- The mutually recursive operations of the engine, folded into one
fuel-indexed interpreter so that every definition is structural (and hence
computes by reduction). `opRunTask` is `Promise::RunTask`;
`opResolveInternal` / `opRejectInternal` are `Promise::ResolveInternal` /
`Promise::RejectInternal`; `opRunResolveTask` is `Promise::RunResolveTask`;
`opCallList`/`opCallOne` are the callback-invocation loop of `RunTask`. -/
inductive Op where
  | opRunTask (pid : PromiseId)
  | opCallList (cbs : List PromiseCallback) (v : Value)
  | opCallOne (c : PromiseCallback) (v : Value)
  | opResolveInternal (pid : PromiseId) (v : Value) (sync : PromiseTaskSync)
  | opRejectInternal (pid : PromiseId) (v : Value) (sync : PromiseTaskSync)
  | opRunResolveTask (pid : PromiseId) (v : Value) (s : PromiseState) (sync : PromiseTaskSync)
deriving Repr

/-- One-step interpreter for `Op`, by recursion on fuel. Out of fuel, the
world is returned unchanged (all theorems below supply enough fuel, and
concrete runs are evaluated).

`opCallOne` on the chaining adapters is the behaviour of
`ResolvePromiseCallback::Call` / `RejectPromiseCallback::Call`.
Modelled from the spec: PromiseCallback.cpp is not part of the sampled
source; section 4.3 of the specification states that when the adapted
value settles, the corresponding adapter forwards the outcome into its
target promise by applying the settlement synchronously (the engine's
`ApplySettlement`, i.e. `ResolveInternal`/`RejectInternal` with
`SyncTask`). User callbacks are external collaborators; invoking one is
logged. Everything else is translated from Promise.cpp. -/
def interp : Nat → World → Op → World
  | 0, w, _ => w
  | fuel+1, w, Op.opRunTask pid =>
    -- Promise::RunTask: take the sequence matching the state, clear both,
    -- then invoke each callback with mResult.
    let p := getP w pid
    let cbs := if p.mState = PromiseState.Resolved
               then p.mResolveCallbacks else p.mRejectCallbacks
    let w1 := setP w pid { p with mResolveCallbacks := [], mRejectCallbacks := [] }
    interp fuel w1 (Op.opCallList cbs p.mResult)
  | _+1, w, Op.opCallList [] _ => w
  | fuel+1, w, Op.opCallList (c :: rest) v =>
    interp fuel (interp fuel w (Op.opCallOne c v)) (Op.opCallList rest v)
  | _+1, w, Op.opCallOne (PromiseCallback.user id) v =>
    { w with callLog := w.callLog ++ [(id, v)] }
  | fuel+1, w, Op.opCallOne (PromiseCallback.resolveAdapter t) v =>
    interp fuel w (Op.opResolveInternal t v PromiseTaskSync.SyncTask)
  | fuel+1, w, Op.opCallOne (PromiseCallback.rejectAdapter t) v =>
    interp fuel w (Op.opRejectInternal t v PromiseTaskSync.SyncTask)
  | fuel+1, w, Op.opResolveInternal pid v sync =>
    -- Promise::ResolveInternal: set mResolvePending; if the value unwraps
    -- to a promise, attach the two chaining adapters to it and return;
    -- otherwise run the resolve task.
    let w1 := setP w pid { getP w pid with mResolvePending := true }
    match unwrapPromise v with
    | some next =>
      appendCallbacks w1 next
        (some (PromiseCallback.resolveAdapter pid))
        (some (PromiseCallback.rejectAdapter pid))
    | none =>
      interp fuel w1 (Op.opRunResolveTask pid v PromiseState.Resolved sync)
  | fuel+1, w, Op.opRejectInternal pid v sync =>
    -- Promise::RejectInternal: set mResolvePending and run the reject
    -- task; the value is never unwrapped.
    let w1 := setP w pid { getP w pid with mResolvePending := true }
    interp fuel w1 (Op.opRunResolveTask pid v PromiseState.Rejected sync)
  | fuel+1, w, Op.opRunResolveTask pid v s sync =>
    -- Promise::RunResolveTask: async dispatches a PromiseResolverTask;
    -- sync sets result and state, then runs RunTask.
    match sync with
    | PromiseTaskSync.AsyncTask => enqueue w (Task.resolverTask pid v s)
    | PromiseTaskSync.SyncTask =>
      let w1 := setP w pid { getP w pid with mResult := v, mState := s }
      interp fuel w1 (Op.opRunTask pid)

/-- `Promise::RunTask`. -/
def runTask (fuel : Nat) (w : World) (pid : PromiseId) : World :=
  interp fuel w (Op.opRunTask pid)

/-- `Promise::ResolveInternal`. -/
def resolveInternal (fuel : Nat) (w : World) (pid : PromiseId) (v : Value)
    (sync : PromiseTaskSync) : World :=
  interp fuel w (Op.opResolveInternal pid v sync)

/-- `Promise::RejectInternal`. -/
def rejectInternal (fuel : Nat) (w : World) (pid : PromiseId) (v : Value)
    (sync : PromiseTaskSync) : World :=
  interp fuel w (Op.opRejectInternal pid v sync)

/-- `Promise::RunResolveTask`. -/
def runResolveTask (fuel : Nat) (w : World) (pid : PromiseId) (v : Value)
    (s : PromiseState) (sync : PromiseTaskSync) : World :=
  interp fuel w (Op.opRunResolveTask pid v s sync)

/-- `Promise::MaybeResolveInternal`: no-op when `mResolvePending` is
already set, else `ResolveInternal`. -/
def maybeResolveInternal (fuel : Nat) (w : World) (pid : PromiseId) (v : Value)
    (sync : PromiseTaskSync) : World :=
  if (getP w pid).mResolvePending then w
  else resolveInternal fuel w pid v sync

/-- `Promise::MaybeRejectInternal`: no-op when `mResolvePending` is already
set, else `RejectInternal`. -/
def maybeRejectInternal (fuel : Nat) (w : World) (pid : PromiseId) (v : Value)
    (sync : PromiseTaskSync) : World :=
  if (getP w pid).mResolvePending then w
  else rejectInternal fuel w pid v sync

/-- Executing one dispatched task on the owning context.
`PromiseTask::Run` clears `mTaskPending` and then calls `RunTask`;
`PromiseResolverTask::Run` calls `RunResolveTask(value, state, SyncTask)`
(via `PromiseResolverMixin::RunInternal`). -/
def runDispatchedTask (fuel : Nat) (w : World) : Task → World
  | Task.promiseTask pid =>
    runTask fuel (setP w pid { getP w pid with mTaskPending := false }) pid
  | Task.resolverTask pid v s =>
    runResolveTask fuel w pid v s PromiseTaskSync.SyncTask

/-- The owning context's event loop: pop tasks FIFO until the queue is
empty (or fuel runs out). -/
def runQueue : Nat → World → World
  | 0, w => w
  | fuel+1, w =>
    match w.queue with
    | [] => w
    | t :: rest => runQueue fuel (runDispatchedTask fuel { w with queue := rest } t)

/-- `Promise::MaybeReportRejected`: emit an unhandled-rejection report
exactly when the promise is Rejected, no reject callback was ever
attached, the result is not undefined, and `js::ErrorFromException`
produces a report for it. -/
def maybeReportRejected (w : World) (pid : PromiseId) : World :=
  let p := getP w pid
  if p.mState ≠ PromiseState.Rejected ∨ p.mHadRejectCallback = true
     ∨ p.mResult = Value.undef then w
  else if errorFromException p.mResult = false then w
  else { w with reports := w.reports ++ [p.mResult] }

/-- `Promise::~Promise` (teardown once no strong references remain):
`MaybeReportRejected()` then drop the retained result. -/
def promiseDtor (w : World) (pid : PromiseId) : World :=
  let w1 := maybeReportRejected w pid
  setP w1 pid { getP w1 pid with mResult := Value.undef }

/-- `Promise::Resolve(value)` static factory: allocate a promise and
attempt asynchronous resolution with the value. -/
def promiseResolve (fuel : Nat) (w : World) (v : Value) : World × PromiseId :=
  let wp := newPromise w
  (maybeResolveInternal fuel wp.1 wp.2 v PromiseTaskSync.AsyncTask, wp.2)

/-- `Promise::Reject(value)` static factory: allocate a promise and attempt
asynchronous rejection with the value. -/
def promiseReject (fuel : Nat) (w : World) (v : Value) : World × PromiseId :=
  let wp := newPromise w
  (maybeRejectInternal fuel wp.1 wp.2 v PromiseTaskSync.AsyncTask, wp.2)

/-- An observable action of an executor passed to `Promise::Constructor`:
calling the resolve capability or the reject capability (each of which is
`Promise::JSCallback`, routing to `MaybeResolveInternal` /
`MaybeRejectInternal` with the default asynchronous flag). -/
inductive ExecAction where
  | callResolve (v : Value)
  | callReject (v : Value)
deriving DecidableEq, Repr

/-- Effect of one executor action on the world. -/
def execAction (fuel : Nat) (pid : PromiseId) (w : World) : ExecAction → World
  | ExecAction.callResolve v =>
    maybeResolveInternal fuel w pid v PromiseTaskSync.AsyncTask
  | ExecAction.callReject v =>
    maybeRejectInternal fuel w pid v PromiseTaskSync.AsyncTask

/-- `Promise::Constructor`: allocate the promise, invoke the executor
synchronously (its capability calls in order), and if it threw, reject the
promise with the thrown value (`MaybeRejectInternal` on the stolen JS
exception); the promise is returned either way. An executor is modelled by
the sequence of capability calls it performs plus an optional thrown
value. -/
def promiseConstructor (fuel : Nat) (w : World) (actions : List ExecAction)
    (thrown : Option Value) : World × PromiseId :=
  let wp := newPromise w
  let w1 := actions.foldl (execAction fuel wp.2) wp.1
  let w2 := match thrown with
    | some e => maybeRejectInternal fuel w1 wp.2 e PromiseTaskSync.AsyncTask
    | none => w1
  (w2, wp.2)

/-- A world holding one promise that was rejected with an error-like value
and whose settlement task has run: `Promise::Reject(errorObj 3)` followed
by the context's event loop. -/
def rejectedErrorWorld : World :=
  runQueue 10 (promiseReject 5 emptyWorld (Value.errorObj 3)).1

/-- `rejectedErrorWorld` after a reject callback was attached late (after
settlement) and the resulting drain task has run. -/
def lateCatchWorld : World :=
  runQueue 10 (appendCallbacks rejectedErrorWorld 0 none (some (PromiseCallback.user 9)))

/-- A world holding one promise already settled Resolved with `num 6` (its
settlement request consumed). -/
def settledWorld : World :=
  { heap := [{ defaultPromise with
                 mState := PromiseState.Resolved
                 mResult := Value.num 6
                 mResolvePending := true }]
    queue := []
    callLog := []
    reports := [] }

/-- A world holding one pending promise whose `mResolvePending` flag is
already set (a settlement was requested but its task has not run). -/
def pendingSetWorld : World :=
  setP (newPromise emptyWorld).1 0 { defaultPromise with mResolvePending := true }

/-- A world holding one settled promise carrying one pending user resolve
callback (used to witness the drain lemma at a concrete input). -/
def drainWitnessWorld : World :=
  { heap := [{ defaultPromise with
                 mState := PromiseState.Resolved
                 mResult := Value.num 6
                 mResolvePending := true
                 mResolveCallbacks := [PromiseCallback.user 4] }]
    queue := []
    callLog := []
    reports := [] }

/-- Callbacks 1, 2, 3 registered in that order on a fresh pending promise,
which is then resolved with 7; the event loop then runs to completion. -/
def orderScenarioWorld : World :=
  runQueue 10 (maybeResolveInternal 5
    (appendCallbacks
      (appendCallbacks
        (appendCallbacks (newPromise emptyWorld).1 0 (some (PromiseCallback.user 1)) none)
        0 (some (PromiseCallback.user 2)) none)
      0 (some (PromiseCallback.user 3)) none)
    0 (Value.num 7) PromiseTaskSync.AsyncTask)

/-- A rejected inner promise consumed by chaining: promise 0 is rejected
with an error-like value, promise 1 is resolved with promise 0, and the
event loop runs to completion (forwarding the rejection into promise 1). -/
def chainConsumedWorld : World :=
  runQueue 10 (promiseResolve 5 (promiseReject 5 emptyWorld (Value.errorObj 7)).1
    (Value.promiseRef 0)).1

/- ------------------------------------------------------------------ -/
/- Helper lemmas about the heap.                                       -/
/- ------------------------------------------------------------------ -/

theorem getP_setP (w : World) (i k : PromiseId) (p : Promise) :
    getP (setP w i p) k = if i = k ∧ i < w.heap.length then p else getP w k := by
  by_cases hik : i = k
  · subst hik
    by_cases hl : i < w.heap.length
    · simp [getP, setP, List.getD, List.getElem?_set_self, hl]
    · simp [getP, setP, List.getD, hl, List.set_eq_of_length_le (Nat.le_of_not_lt hl)]
  · simp [getP, setP, List.getD, List.getElem?_set_ne hik, hik]

theorem setP_heap_length (w : World) (i : PromiseId) (p : Promise) :
    (setP w i p).heap.length = w.heap.length := by
  simp [setP]

theorem setP_queue (w : World) (i : PromiseId) (p : Promise) :
    (setP w i p).queue = w.queue := rfl

theorem setP_callLog (w : World) (i : PromiseId) (p : Promise) :
    (setP w i p).callLog = w.callLog := rfl

theorem enqueue_heap (w : World) (t : Task) : (enqueue w t).heap = w.heap := rfl

theorem enqueue_queue (w : World) (t : Task) :
    (enqueue w t).queue = w.queue ++ [t] := rfl

theorem getP_enqueue (w : World) (t : Task) (k : PromiseId) :
    getP (enqueue w t) k = getP w k := rfl

theorem appendedPromise_mState (p : Promise) (r j : Option PromiseCallback) :
    (appendedPromise p r j).mState = p.mState := by
  cases r <;> cases j <;> rfl

theorem appendedPromise_mTaskPending (p : Promise) (r j : Option PromiseCallback) :
    (appendedPromise p r j).mTaskPending = p.mTaskPending := by
  cases r <;> cases j <;> rfl

theorem appendedPromise_mResult (p : Promise) (r j : Option PromiseCallback) :
    (appendedPromise p r j).mResult = p.mResult := by
  cases r <;> cases j <;> rfl

theorem appendedPromise_mHadRejectCallback_some (p : Promise)
    (r : Option PromiseCallback) (c : PromiseCallback) :
    (appendedPromise p r (some c)).mHadRejectCallback = true := by
  cases r <;> rfl

theorem getP_appendCallbacks_other (w : World) (i k : PromiseId)
    (r j : Option PromiseCallback) (hik : i ≠ k) :
    getP (appendCallbacks w i r j) k = getP w k := by
  simp only [appendCallbacks]
  split <;> simp [getP_setP, getP_enqueue, hik]

theorem getP_mState_appendCallbacks (w : World) (i k : PromiseId)
    (r j : Option PromiseCallback) :
    (getP (appendCallbacks w i r j) k).mState = (getP w k).mState := by
  by_cases hik : i = k
  · subst hik
    simp only [appendCallbacks]
    split <;>
      by_cases hl : i < w.heap.length <;>
        simp [getP_setP, getP_enqueue, enqueue_heap, setP_heap_length, hl,
              appendedPromise_mState]
  · rw [getP_appendCallbacks_other w i k r j hik]

theorem getP_appendCallbacks_self_reject (w : World) (i : PromiseId)
    (r : Option PromiseCallback) (c : PromiseCallback) (h : i < w.heap.length) :
    (getP (appendCallbacks w i r (some c)) i).mHadRejectCallback = true := by
  simp only [appendCallbacks]
  split <;>
    simp [getP_setP, getP_enqueue, enqueue_heap, setP_heap_length, h,
          appendedPromise_mHadRejectCallback_some]

theorem appendCallbacks_queue_of_pending (w : World) (i : PromiseId)
    (r j : Option PromiseCallback) (h : (getP w i).mState = PromiseState.Pending) :
    (appendCallbacks w i r j).queue = w.queue := by
  simp [appendCallbacks, appendedPromise_mState, h, setP_queue]

theorem appendCallbacks_queue_of_taskPending (w : World) (i : PromiseId)
    (r j : Option PromiseCallback) (h : (getP w i).mTaskPending = true) :
    (appendCallbacks w i r j).queue = w.queue := by
  simp [appendCallbacks, appendedPromise_mTaskPending, h, setP_queue]

theorem appendCallbacks_queue_enqueues (w : World) (i : PromiseId)
    (r j : Option PromiseCallback) (h1 : (getP w i).mState ≠ PromiseState.Pending)
    (h2 : (getP w i).mTaskPending = false) :
    (appendCallbacks w i r j).queue = w.queue ++ [Task.promiseTask i] := by
  simp [appendCallbacks, appendedPromise_mState, appendedPromise_mTaskPending,
        h1, h2, setP_queue, enqueue_queue]

theorem appendCallbacks_sets_taskPending (w : World) (i : PromiseId)
    (r j : Option PromiseCallback) (h1 : (getP w i).mState ≠ PromiseState.Pending)
    (h2 : (getP w i).mTaskPending = false) (hl : i < w.heap.length) :
    (getP (appendCallbacks w i r j) i).mTaskPending = true := by
  simp [appendCallbacks, appendedPromise_mState, appendedPromise_mTaskPending,
        h1, h2, getP_setP, getP_enqueue, enqueue_heap, setP_heap_length, hl]

theorem interp_callList_users (ids : List CbId) :
    ∀ (fuel : Nat) (w : World) (v : Value), ids.length < fuel →
      interp fuel w (Op.opCallList (ids.map PromiseCallback.user) v)
        = { w with callLog := w.callLog ++ ids.map (fun i => (i, v)) } := by
  induction ids with
  | nil =>
    intro fuel w v h
    match fuel, h with
    | f+1, _ => simp [interp]
  | cons i rest ih =>
    intro fuel w v h
    match fuel, h with
    | f+1, h =>
      have hf : rest.length < f := Nat.lt_of_succ_lt_succ h
      match f, hf with
      | g+1, hf =>
        have step : interp (g+1+1) w
              (Op.opCallList ((i :: rest).map PromiseCallback.user) v)
            = interp (g+1) { w with callLog := w.callLog ++ [(i, v)] }
                (Op.opCallList (rest.map PromiseCallback.user) v) := rfl
        rw [step, ih (g+1) _ v hf]
        simp

theorem runTask_user_callbacks_resolved (w : World) (pid : PromiseId)
    (ids : List CbId) (fuel : Nat)
    (hstate : (getP w pid).mState = PromiseState.Resolved)
    (hcbs : (getP w pid).mResolveCallbacks = ids.map PromiseCallback.user)
    (hfuel : ids.length + 1 < fuel) :
    runTask fuel w pid
      = { setP w pid
            { getP w pid with mResolveCallbacks := [], mRejectCallbacks := [] }
          with callLog := w.callLog ++ ids.map (fun i => (i, (getP w pid).mResult)) } := by
  match fuel, hfuel with
  | f+1, hfuel =>
    have hf : ids.length < f := Nat.lt_of_succ_lt_succ hfuel
    have step : runTask (f+1) w pid
        = interp f
            (setP w pid
              { getP w pid with mResolveCallbacks := [], mRejectCallbacks := [] })
            (Op.opCallList
              (if (getP w pid).mState = PromiseState.Resolved
               then (getP w pid).mResolveCallbacks
               else (getP w pid).mRejectCallbacks)
              (getP w pid).mResult) := rfl
    rw [step, if_pos hstate, hcbs, interp_callList_users ids f _ _ hf]
    rfl

theorem runTask_user_callbacks_rejected (w : World) (pid : PromiseId)
    (ids : List CbId) (fuel : Nat)
    (hstate : (getP w pid).mState = PromiseState.Rejected)
    (hcbs : (getP w pid).mRejectCallbacks = ids.map PromiseCallback.user)
    (hfuel : ids.length + 1 < fuel) :
    runTask fuel w pid
      = { setP w pid
            { getP w pid with mResolveCallbacks := [], mRejectCallbacks := [] }
          with callLog := w.callLog ++ ids.map (fun i => (i, (getP w pid).mResult)) } := by
  match fuel, hfuel with
  | f+1, hfuel =>
    have hf : ids.length < f := Nat.lt_of_succ_lt_succ hfuel
    have hne : ¬((getP w pid).mState = PromiseState.Resolved) := by
      rw [hstate]; simp
    have step : runTask (f+1) w pid
        = interp f
            (setP w pid
              { getP w pid with mResolveCallbacks := [], mRejectCallbacks := [] })
            (Op.opCallList
              (if (getP w pid).mState = PromiseState.Resolved
               then (getP w pid).mResolveCallbacks
               else (getP w pid).mRejectCallbacks)
              (getP w pid).mResult) := rfl
    rw [step, if_neg hne, hcbs, interp_callList_users ids f _ _ hf]
    rfl

/- ------------------------------------------------------------------ -/
/- Claim theorems.                                                     -/
/- ------------------------------------------------------------------ -/

/-- C1: at most one settlement attempt takes effect. The first `Settle`
(`MaybeResolveInternal` / `MaybeRejectInternal`) sets `mResolvePending`,
and any later call of either disposition on a promise whose
`mResolvePending` flag is set is a no-op (the world is unchanged). In the
concrete trace Settle(Fulfill, v1) then Settle(Reject, v2) on a fresh
promise, the second call leaves the world identical, and after the queued
settlement task runs the state is Resolved with result v1; the state went
Pending to Resolved exactly once (it is still Pending between the two
calls and after the second). -/
theorem c1_settlement_first_wins :
    (∀ (fuel : Nat) (w : World) (pid : PromiseId) (v : Value) (sync : PromiseTaskSync),
        (getP w pid).mResolvePending = true →
        maybeResolveInternal fuel w pid v sync = w
          ∧ maybeRejectInternal fuel w pid v sync = w)
  ∧ (∀ (a : Int) (v2 : Value),
        (getP (maybeResolveInternal 5 (newPromise emptyWorld).1 0 (Value.num a)
            PromiseTaskSync.AsyncTask) 0).mResolvePending = true
        ∧ (getP (maybeResolveInternal 5 (newPromise emptyWorld).1 0 (Value.num a)
            PromiseTaskSync.AsyncTask) 0).mState = PromiseState.Pending
        ∧ maybeRejectInternal 5
            (maybeResolveInternal 5 (newPromise emptyWorld).1 0 (Value.num a)
              PromiseTaskSync.AsyncTask) 0 v2 PromiseTaskSync.AsyncTask
          = maybeResolveInternal 5 (newPromise emptyWorld).1 0 (Value.num a)
              PromiseTaskSync.AsyncTask
        ∧ (getP (runQueue 10 (maybeRejectInternal 5
            (maybeResolveInternal 5 (newPromise emptyWorld).1 0 (Value.num a)
              PromiseTaskSync.AsyncTask) 0 v2 PromiseTaskSync.AsyncTask)) 0).mState
          = PromiseState.Resolved
        ∧ (getP (runQueue 10 (maybeRejectInternal 5
            (maybeResolveInternal 5 (newPromise emptyWorld).1 0 (Value.num a)
              PromiseTaskSync.AsyncTask) 0 v2 PromiseTaskSync.AsyncTask)) 0).mResult
          = Value.num a) := by
  constructor
  · intro fuel w pid v sync h
    constructor <;> simp [maybeResolveInternal, maybeRejectInternal, h]
  · intro a v2
    exact ⟨rfl, rfl, rfl, rfl, rfl⟩

/-- Witness for C1: a later settlement attempt on a promise whose
`mResolvePending` flag is set leaves the world unchanged. -/
theorem c1_settlement_first_wins_witness :
    maybeResolveInternal 3 pendingSetWorld 0 (Value.num 7) PromiseTaskSync.AsyncTask
      = pendingSetWorld :=
  (c1_settlement_first_wins.1 3 pendingSetWorld 0 (Value.num 7)
    PromiseTaskSync.AsyncTask (by decide)).1

/-- C4: rejection values are never unwrapped. Rejecting a fresh promise
with any value v — including a value that wraps a promise — settles it
Rejected with result exactly v; in particular Reject(Resolve(5)) settles
Rejected with the inner promise object itself as result, not 5. -/
theorem c4_reject_never_unwraps :
    (∀ (v : Value),
        (getP (runQueue 10 (promiseReject 5 emptyWorld v).1)
            (promiseReject 5 emptyWorld v).2).mState = PromiseState.Rejected
        ∧ (getP (runQueue 10 (promiseReject 5 emptyWorld v).1)
            (promiseReject 5 emptyWorld v).2).mResult = v)
  ∧ ((getP (runQueue 10 (promiseReject 5
        (promiseResolve 5 emptyWorld (Value.num 5)).1
        (Value.promiseRef (promiseResolve 5 emptyWorld (Value.num 5)).2)).1) 1).mState
      = PromiseState.Rejected
     ∧ (getP (runQueue 10 (promiseReject 5
        (promiseResolve 5 emptyWorld (Value.num 5)).1
        (Value.promiseRef (promiseResolve 5 emptyWorld (Value.num 5)).2)).1) 1).mResult
      = Value.promiseRef 0
     ∧ (getP (runQueue 10 (promiseReject 5
        (promiseResolve 5 emptyWorld (Value.num 5)).1
        (Value.promiseRef (promiseResolve 5 emptyWorld (Value.num 5)).2)).1) 0).mResult
      = Value.num 5) := by
  refine ⟨fun v => ⟨rfl, rfl⟩, by decide⟩

/-- C10: the static factories `Promise::Resolve` and `Promise::Reject`
never settle synchronously. Immediately after either factory returns, the
returned promise is still Pending with an undefined result, yet
`mResolvePending` is already set, so every further settlement attempt of
either disposition (any fuel, any value, sync or async) is a no-op. -/
theorem c10_factories_not_synchronous :
    (∀ (v : Value),
        (getP (promiseResolve 5 emptyWorld v).1 (promiseResolve 5 emptyWorld v).2).mState
          = PromiseState.Pending
        ∧ (getP (promiseResolve 5 emptyWorld v).1 (promiseResolve 5 emptyWorld v).2).mResult
          = Value.undef
        ∧ (getP (promiseResolve 5 emptyWorld v).1 (promiseResolve 5 emptyWorld v).2).mResolvePending
          = true
        ∧ (∀ (fuel : Nat) (v2 : Value) (sync : PromiseTaskSync),
            maybeResolveInternal fuel (promiseResolve 5 emptyWorld v).1
                (promiseResolve 5 emptyWorld v).2 v2 sync
              = (promiseResolve 5 emptyWorld v).1
            ∧ maybeRejectInternal fuel (promiseResolve 5 emptyWorld v).1
                (promiseResolve 5 emptyWorld v).2 v2 sync
              = (promiseResolve 5 emptyWorld v).1))
  ∧ (∀ (v : Value),
        (getP (promiseReject 5 emptyWorld v).1 (promiseReject 5 emptyWorld v).2).mState
          = PromiseState.Pending
        ∧ (getP (promiseReject 5 emptyWorld v).1 (promiseReject 5 emptyWorld v).2).mResult
          = Value.undef
        ∧ (getP (promiseReject 5 emptyWorld v).1 (promiseReject 5 emptyWorld v).2).mResolvePending
          = true
        ∧ (∀ (fuel : Nat) (v2 : Value) (sync : PromiseTaskSync),
            maybeResolveInternal fuel (promiseReject 5 emptyWorld v).1
                (promiseReject 5 emptyWorld v).2 v2 sync
              = (promiseReject 5 emptyWorld v).1
            ∧ maybeRejectInternal fuel (promiseReject 5 emptyWorld v).1
                (promiseReject 5 emptyWorld v).2 v2 sync
              = (promiseReject 5 emptyWorld v).1)) := by
  constructor
  · intro v
    match v with
    | Value.undef => exact ⟨rfl, rfl, rfl, fun fuel v2 sync => ⟨rfl, rfl⟩⟩
    | Value.num n => exact ⟨rfl, rfl, rfl, fun fuel v2 sync => ⟨rfl, rfl⟩⟩
    | Value.promiseRef 0 => exact ⟨rfl, rfl, rfl, fun fuel v2 sync => ⟨rfl, rfl⟩⟩
    | Value.promiseRef (q+1) => exact ⟨rfl, rfl, rfl, fun fuel v2 sync => ⟨rfl, rfl⟩⟩
    | Value.errorObj n => exact ⟨rfl, rfl, rfl, fun fuel v2 sync => ⟨rfl, rfl⟩⟩
    | Value.plainObj n => exact ⟨rfl, rfl, rfl, fun fuel v2 sync => ⟨rfl, rfl⟩⟩
  · intro v
    match v with
    | Value.undef => exact ⟨rfl, rfl, rfl, fun fuel v2 sync => ⟨rfl, rfl⟩⟩
    | Value.num n => exact ⟨rfl, rfl, rfl, fun fuel v2 sync => ⟨rfl, rfl⟩⟩
    | Value.promiseRef q => exact ⟨rfl, rfl, rfl, fun fuel v2 sync => ⟨rfl, rfl⟩⟩
    | Value.errorObj n => exact ⟨rfl, rfl, rfl, fun fuel v2 sync => ⟨rfl, rfl⟩⟩
    | Value.plainObj n => exact ⟨rfl, rfl, rfl, fun fuel v2 sync => ⟨rfl, rfl⟩⟩

/-- C2: `MaybeReportRejected` emits an unhandled-rejection report exactly
when the promise is Rejected, no reject callback was ever attached
(`mHadRejectCallback` false), and the result is error-like (not undefined
and `js::ErrorFromException` yields a report); otherwise it is a no-op.
Concretely: a promise rejected with an error and then given a reject
callback before teardown reports nothing at teardown (even though the
callback arrived after settlement), while one rejected and torn down with
no reject callback ever attached reports exactly once (teardown clears
the retained result, so even a repeated teardown adds no second
report). -/
theorem c2_unhandled_rejection_report :
    (∀ (w : World) (pid : PromiseId),
        maybeReportRejected w pid =
          (if (getP w pid).mState = PromiseState.Rejected
              ∧ (getP w pid).mHadRejectCallback = false
              ∧ (getP w pid).mResult ≠ Value.undef
              ∧ errorFromException (getP w pid).mResult = true
           then { w with reports := w.reports ++ [(getP w pid).mResult] }
           else w))
  ∧ ((getP lateCatchWorld 0).mState = PromiseState.Rejected
     ∧ (getP lateCatchWorld 0).mHadRejectCallback = true
     ∧ lateCatchWorld.callLog = [(9, Value.errorObj 3)]
     ∧ (promiseDtor lateCatchWorld 0).reports = [])
  ∧ ((getP rejectedErrorWorld 0).mState = PromiseState.Rejected
     ∧ (getP rejectedErrorWorld 0).mHadRejectCallback = false
     ∧ (promiseDtor rejectedErrorWorld 0).reports = [Value.errorObj 3]
     ∧ (promiseDtor (promiseDtor rejectedErrorWorld 0) 0).reports = [Value.errorObj 3]) := by
  refine ⟨?_, by decide, by decide⟩
  intro w pid
  by_cases h1 : (getP w pid).mState = PromiseState.Rejected <;>
    by_cases h2 : (getP w pid).mHadRejectCallback = true <;>
      by_cases h3 : (getP w pid).mResult = Value.undef <;>
        by_cases h4 : errorFromException (getP w pid).mResult = true <;>
          simp [maybeReportRejected, h1, h2, h3, h4]

/-- C7: `Promise::Constructor` invokes the executor synchronously with
resolve and reject capabilities routing to `Settle`. If the executor
throws before calling either capability, the thrown value becomes the
promise's rejection value (for every thrown value v). If the executor
calls resolveCap(1) then rejectCap(2) synchronously, the promise settles
Resolved with 1 and a later reject is a no-op. If the executor settles
(resolveCap(1)) and then throws, the first settlement wins and the
construction still returns the promise. -/
theorem c7_constructor_executor :
    (∀ (v : Value),
        (getP (runQueue 10 (promiseConstructor 5 emptyWorld [] (some v)).1)
            (promiseConstructor 5 emptyWorld [] (some v)).2).mState = PromiseState.Rejected
        ∧ (getP (runQueue 10 (promiseConstructor 5 emptyWorld [] (some v)).1)
            (promiseConstructor 5 emptyWorld [] (some v)).2).mResult = v)
  ∧ ((promiseConstructor 5 emptyWorld
        [ExecAction.callResolve (Value.num 1), ExecAction.callReject (Value.num 2)] none).2 = 0
     ∧ (getP (runQueue 10 (promiseConstructor 5 emptyWorld
          [ExecAction.callResolve (Value.num 1), ExecAction.callReject (Value.num 2)] none).1)
          0).mState = PromiseState.Resolved
     ∧ (getP (runQueue 10 (promiseConstructor 5 emptyWorld
          [ExecAction.callResolve (Value.num 1), ExecAction.callReject (Value.num 2)] none).1)
          0).mResult = Value.num 1
     ∧ maybeRejectInternal 5
         (runQueue 10 (promiseConstructor 5 emptyWorld
           [ExecAction.callResolve (Value.num 1), ExecAction.callReject (Value.num 2)] none).1)
         0 (Value.num 9) PromiseTaskSync.AsyncTask
       = runQueue 10 (promiseConstructor 5 emptyWorld
           [ExecAction.callResolve (Value.num 1), ExecAction.callReject (Value.num 2)] none).1)
  ∧ (∀ (v : Value),
        (promiseConstructor 5 emptyWorld [ExecAction.callResolve (Value.num 1)] (some v)).2 = 0
        ∧ (getP (runQueue 10 (promiseConstructor 5 emptyWorld
             [ExecAction.callResolve (Value.num 1)] (some v)).1) 0).mState
            = PromiseState.Resolved
        ∧ (getP (runQueue 10 (promiseConstructor 5 emptyWorld
             [ExecAction.callResolve (Value.num 1)] (some v)).1) 0).mResult
            = Value.num 1) := by
  exact ⟨fun v => ⟨rfl, rfl⟩, ⟨rfl, rfl, rfl, rfl⟩, fun v => ⟨rfl, rfl, rfl⟩⟩

/-- C8: registering a callback never invokes it in the same call stack:
`AppendCallbacks` leaves the invocation log untouched for every world and
every pair of callbacks. On an already-settled promise it instead
enqueues a drain task, and running the queue then invokes the late
callback exactly once with the promise's result. -/
theorem c8_late_registration_async :
    (∀ (w : World) (pid : PromiseId) (r j : Option PromiseCallback),
        (appendCallbacks w pid r j).callLog = w.callLog)
  ∧ (∀ (i : CbId),
        (appendCallbacks settledWorld 0 (some (PromiseCallback.user i)) none).callLog = []
        ∧ (appendCallbacks settledWorld 0 (some (PromiseCallback.user i)) none).queue
            = [Task.promiseTask 0]
        ∧ (runQueue 10 (appendCallbacks settledWorld 0
             (some (PromiseCallback.user i)) none)).callLog = [(i, Value.num 6)]) := by
  constructor
  · intro w pid r j
    cases r <;> cases j <;>
      simp [appendCallbacks, apply_ite World.callLog, setP, enqueue]
  · intro i
    exact ⟨rfl, rfl, rfl⟩

/-- C3: resolving with a value that wraps a promise does not settle the
promise. `ResolveInternal` on such a value is exactly the attachment of
the fulfill/reject adapter callbacks to the inner promise (after setting
`mResolvePending`), and the outer promise's state is unchanged by the
call. If the chainable test fails (the value is an object that does not
unwrap to a promise), ordinary fulfillment proceeds: the promise settles
Resolved with that object — the settlement is never dropped. Concretely,
Resolve(Resolve(5)) attaches adapters to the inner promise and eventually
settles the outer promise Fulfilled with 5. -/
theorem c3_resolve_chains_thenables :
    (∀ (fuel : Nat) (w : World) (pid q : PromiseId) (sync : PromiseTaskSync),
        resolveInternal (fuel+1) w pid (Value.promiseRef q) sync
          = appendCallbacks (setP w pid { getP w pid with mResolvePending := true }) q
              (some (PromiseCallback.resolveAdapter pid))
              (some (PromiseCallback.rejectAdapter pid)))
  ∧ (∀ (fuel : Nat) (w : World) (pid q : PromiseId) (sync : PromiseTaskSync),
        (getP (resolveInternal (fuel+1) w pid (Value.promiseRef q) sync) pid).mState
          = (getP w pid).mState)
  ∧ (∀ (n : Nat),
        (getP (runQueue 10 (promiseResolve 5 emptyWorld (Value.plainObj n)).1) 0).mState
          = PromiseState.Resolved
        ∧ (getP (runQueue 10 (promiseResolve 5 emptyWorld (Value.plainObj n)).1) 0).mResult
          = Value.plainObj n)
  ∧ ((getP (promiseResolve 5 (promiseResolve 5 emptyWorld (Value.num 5)).1
        (Value.promiseRef 0)).1 0).mResolveCallbacks = [PromiseCallback.resolveAdapter 1]
     ∧ (getP (promiseResolve 5 (promiseResolve 5 emptyWorld (Value.num 5)).1
          (Value.promiseRef 0)).1 0).mRejectCallbacks = [PromiseCallback.rejectAdapter 1]
     ∧ (getP (promiseResolve 5 (promiseResolve 5 emptyWorld (Value.num 5)).1
          (Value.promiseRef 0)).1 1).mState = PromiseState.Pending
     ∧ (getP (runQueue 10 (promiseResolve 5 (promiseResolve 5 emptyWorld (Value.num 5)).1
          (Value.promiseRef 0)).1) 1).mState = PromiseState.Resolved
     ∧ (getP (runQueue 10 (promiseResolve 5 (promiseResolve 5 emptyWorld (Value.num 5)).1
          (Value.promiseRef 0)).1) 1).mResult = Value.num 5) := by
  refine ⟨fun fuel w pid q sync => rfl, ?_, fun n => ⟨rfl, rfl⟩, by decide⟩
  intro fuel w pid q sync
  have h0 : resolveInternal (fuel+1) w pid (Value.promiseRef q) sync
      = appendCallbacks (setP w pid { getP w pid with mResolvePending := true }) q
          (some (PromiseCallback.resolveAdapter pid))
          (some (PromiseCallback.rejectAdapter pid)) := rfl
  rw [h0, getP_mState_appendCallbacks, getP_setP]
  split <;> rfl

/-- C6: drain-task scheduling is coalesced without losing callbacks.
`AppendCallbacks` leaves the queue untouched while the promise is Pending
or while a drain task is already pending, and enqueues exactly one
`PromiseTask` (setting `mTaskPending`) when the promise is settled with no
task pending. Concretely: on a settled promise a first registration
enqueues one task, a second registration before the task runs enqueues no
second task, yet running the single task fires both callbacks in order
(the task clears `mTaskPending` before draining, so callbacks appended
between scheduling and execution are picked up), and afterwards the flag
is clear again. -/
theorem c6_drain_task_coalescing :
    (∀ (w : World) (pid : PromiseId) (r j : Option PromiseCallback),
        (getP w pid).mState = PromiseState.Pending →
        (appendCallbacks w pid r j).queue = w.queue)
  ∧ (∀ (w : World) (pid : PromiseId) (r j : Option PromiseCallback),
        (getP w pid).mTaskPending = true →
        (appendCallbacks w pid r j).queue = w.queue)
  ∧ (∀ (w : World) (pid : PromiseId) (r j : Option PromiseCallback),
        (getP w pid).mState ≠ PromiseState.Pending →
        (getP w pid).mTaskPending = false →
        (appendCallbacks w pid r j).queue = w.queue ++ [Task.promiseTask pid]
        ∧ (pid < w.heap.length →
            (getP (appendCallbacks w pid r j) pid).mTaskPending = true))
  ∧ ((appendCallbacks settledWorld 0 (some (PromiseCallback.user 1)) none).queue
       = [Task.promiseTask 0]
     ∧ (appendCallbacks (appendCallbacks settledWorld 0 (some (PromiseCallback.user 1)) none)
          0 (some (PromiseCallback.user 2)) none).queue = [Task.promiseTask 0]
     ∧ (runQueue 10 (appendCallbacks
          (appendCallbacks settledWorld 0 (some (PromiseCallback.user 1)) none)
          0 (some (PromiseCallback.user 2)) none)).callLog
         = [(1, Value.num 6), (2, Value.num 6)]
     ∧ (getP (runQueue 10 (appendCallbacks
          (appendCallbacks settledWorld 0 (some (PromiseCallback.user 1)) none)
          0 (some (PromiseCallback.user 2)) none)) 0).mTaskPending = false) := by
  refine ⟨fun w pid r j h => appendCallbacks_queue_of_pending w pid r j h,
          fun w pid r j h => appendCallbacks_queue_of_taskPending w pid r j h,
          fun w pid r j h1 h2 =>
            ⟨appendCallbacks_queue_enqueues w pid r j h1 h2,
             fun hl => appendCallbacks_sets_taskPending w pid r j h1 h2 hl⟩,
          by decide⟩

/-- Witness for C6: on the settled one-promise world with no task pending,
a registration enqueues the drain task. -/
theorem c6_drain_task_coalescing_witness :
    (appendCallbacks settledWorld 0 none (some (PromiseCallback.user 3))).queue
      = settledWorld.queue ++ [Task.promiseTask 0] :=
  (c6_drain_task_coalescing.2.2.1 settledWorld 0 none (some (PromiseCallback.user 3))
    (by decide) (by decide)).1

/-- C9: resolving a promise with an inner promise marks the inner
promise's rejection as observed: the chaining path of `ResolveInternal`
attaches a non-null reject adapter via `AppendCallbacks`, which sets the
inner promise's `mHadRejectCallback` flag; hence an inner promise consumed
by chaining never reports an unhandled rejection at teardown, even when it
rejects with an error-like value whose rejection is only forwarded. -/
theorem c9_chaining_marks_rejection_observed :
    (∀ (fuel : Nat) (w : World) (pid q : PromiseId) (sync : PromiseTaskSync),
        q < w.heap.length →
        (getP (resolveInternal (fuel+1) w pid (Value.promiseRef q) sync) q).mHadRejectCallback
          = true)
  ∧ ((getP chainConsumedWorld 0).mState = PromiseState.Rejected
     ∧ (getP chainConsumedWorld 0).mHadRejectCallback = true
     ∧ (getP chainConsumedWorld 1).mState = PromiseState.Rejected
     ∧ (getP chainConsumedWorld 1).mResult = Value.errorObj 7
     ∧ (promiseDtor chainConsumedWorld 0).reports = []) := by
  constructor
  · intro fuel w pid q sync h
    have h0 : resolveInternal (fuel+1) w pid (Value.promiseRef q) sync
        = appendCallbacks (setP w pid { getP w pid with mResolvePending := true }) q
            (some (PromiseCallback.resolveAdapter pid))
            (some (PromiseCallback.rejectAdapter pid)) := rfl
    rw [h0]
    exact getP_appendCallbacks_self_reject _ q _ _
      (by rw [setP_heap_length]; exact h)
  · decide

/-- Witness for C9: resolving a fresh promise with a reference to another
existing promise sets that promise's `mHadRejectCallback` flag. -/
theorem c9_chaining_marks_rejection_observed_witness :
    (getP (resolveInternal 3 (newPromise (newPromise emptyWorld).1).1 1
        (Value.promiseRef 0) PromiseTaskSync.AsyncTask) 0).mHadRejectCallback = true :=
  c9_chaining_marks_rejection_observed.1 2 (newPromise (newPromise emptyWorld).1).1 1 0
    PromiseTaskSync.AsyncTask (by decide)

/-- C5: `RunTask` (Drain) on a settled promise takes the entire callback
sequence matching the state's disposition, clears both stored sequences,
and invokes each taken callback in registration order with the promise's
result: for any world whose promise holds user callbacks `ids` in its
matching sequence, `RunTask` produces exactly the world with both
sequences cleared and the invocation log extended by `ids` in order, each
paired with `mResult` (stated for both the Resolved and the Rejected
disposition). Concretely, callbacks 1, 2, 3 registered in that order on a
pending promise fire in the order 1, 2, 3 after settlement, and both
sequences end empty. -/
theorem c5_drain_clears_and_fires_in_order :
    (∀ (w : World) (pid : PromiseId) (ids : List CbId) (fuel : Nat),
        (getP w pid).mState = PromiseState.Resolved →
        (getP w pid).mResolveCallbacks = ids.map PromiseCallback.user →
        ids.length + 1 < fuel →
        runTask fuel w pid
          = { setP w pid
                { getP w pid with mResolveCallbacks := [], mRejectCallbacks := [] }
              with callLog := w.callLog ++ ids.map (fun i => (i, (getP w pid).mResult)) })
  ∧ (∀ (w : World) (pid : PromiseId) (ids : List CbId) (fuel : Nat),
        (getP w pid).mState = PromiseState.Rejected →
        (getP w pid).mRejectCallbacks = ids.map PromiseCallback.user →
        ids.length + 1 < fuel →
        runTask fuel w pid
          = { setP w pid
                { getP w pid with mResolveCallbacks := [], mRejectCallbacks := [] }
              with callLog := w.callLog ++ ids.map (fun i => (i, (getP w pid).mResult)) })
  ∧ (orderScenarioWorld.callLog
       = [(1, Value.num 7), (2, Value.num 7), (3, Value.num 7)]
     ∧ (getP orderScenarioWorld 0).mResolveCallbacks = []
     ∧ (getP orderScenarioWorld 0).mRejectCallbacks = []
     ∧ (getP orderScenarioWorld 0).mState = PromiseState.Resolved) := by
  exact ⟨fun w pid ids fuel h1 h2 h3 =>
           runTask_user_callbacks_resolved w pid ids fuel h1 h2 h3,
         fun w pid ids fuel h1 h2 h3 =>
           runTask_user_callbacks_rejected w pid ids fuel h1 h2 h3,
         by decide⟩

/-- Witness for C5: draining the concrete settled world with one queued
user callback produces exactly the cleared world with the one logged
invocation. -/
theorem c5_drain_clears_and_fires_in_order_witness :
    runTask 9 drainWitnessWorld 0
      = { setP drainWitnessWorld 0
            { getP drainWitnessWorld 0 with
                mResolveCallbacks := [], mRejectCallbacks := [] }
          with callLog := drainWitnessWorld.callLog
            ++ [4].map (fun i => (i, (getP drainWitnessWorld 0).mResult)) } :=
  c5_drain_clears_and_fires_in_order.1 drainWitnessWorld 0 [4] 9
    (by decide) (by decide) (by decide)

end GeckoPromise
